import Mathlib

/-!
Shallow embedding of the `spread` Rust crate (a Spread group-communication
client) and proofs about it.

Machine integers are modelled as `Nat` with explicit `% 2^32` where a `u32`
operation could wrap.  Rust strings (`&str`) are modelled as lists of Unicode
code points (`RStr`); `str::len()` is the UTF-8 byte length `strLen`.
Fallible operations return `Except`/`Option`.
-/

namespace Spread

/-! ## `src/util.rs` -/

/-- Used to determine endianness (`static ENDIANTYPE: u32 = 0x80000080`). -/
def ENDIANTYPE : Nat := 0x80000080

/-- `int_to_bytes`: convert a `u32` to a 4-element byte vector.  The source
pushes `(i >> p) & 0xFF` for `p = 0, 8, 16, 24` and then reverses. -/
def int_to_bytes (i : Nat) : List Nat :=
  (([0, 8, 16, 24].map fun p => (i >>> p) &&& 0xFF)).reverse

/-- `bytes_to_int`: convert a 4-element byte vector to a `u32`.  The source
indexes `bytes[0] .. bytes[3]`; callers always pass 4-byte slices, so the
out-of-range default is irrelevant.  Left shifts of a `u32` keep the low 32
bits, hence the `% 2^32`. -/
def bytes_to_int (bytes : List Nat) : Nat :=
  let i0 := bytes.getD 0 0 &&& 0xFF
  let i1 := bytes.getD 1 0 &&& 0xFF
  let i2 := bytes.getD 2 0 &&& 0xFF
  let i3 := bytes.getD 3 0 &&& 0xFF
  ((i0 <<< 24) % 2 ^ 32) ||| (((i1 <<< 16) % 2 ^ 32) ||| (((i2 <<< 8) % 2 ^ 32) ||| i3))

/-- `same_endianness`: true if the argument int has the same endianness as the
local machine (`(i & ENDIANTYPE) == 0`). -/
def same_endianness (i : Nat) : Bool := (i &&& ENDIANTYPE) == 0

/-- `flip_endianness`: flips the byte order of the argument `u32`. -/
def flip_endianness (i : Nat) : Nat :=
  let i0 := (i >>> 24) &&& 0x000000ff
  let i1 := (i >>> 8) &&& 0x0000ff00
  let i2 := ((i <<< 8) % 2 ^ 32) &&& 0x00ff0000
  let i3 := ((i <<< 24) % 2 ^ 32) &&& 0xff000000
  ((i0 ||| i1) ||| i2) ||| i3

/-! ## External text codecs

A Rust `&str` is modelled as its list of Unicode code points (`RStr`).
`str::len()` in Rust is the UTF-8 byte length, modelled by `strLen`.
The `encoding` crate's `ISO_8859_1` codec maps each code point `< 0x100` to
one byte (strict encoding fails on anything larger) and decodes every byte
to the same code point (its strict decoding is total). -/

/-- A Rust string as a list of Unicode code points. -/
abbrev RStr := List Nat

/-- Number of bytes a code point occupies in UTF-8. -/
def utf8Size (c : Nat) : Nat :=
  if c < 0x80 then 1 else if c < 0x800 then 2 else if c < 0x10000 then 3 else 4

/-- Rust `str::len()`: the UTF-8 byte length of the string. -/
def strLen (s : RStr) : Nat := (s.map utf8Size).sum

/-- `ISO_8859_1.encode(_, EncoderTrap::Strict)`: one byte per code point,
failing on code points above `0xFF`. -/
def latin1Encode : RStr → Option (List Nat)
  | [] => some []
  | c :: cs =>
    if c < 0x100 then (latin1Encode cs).map (fun bs => c :: bs) else none

/-- `ISO_8859_1.decode(_, DecoderTrap::Strict)`: total, each byte becomes the
code point of the same value. -/
def latin1Decode (bs : List Nat) : RStr := bs

/-- `String::from_utf8`: standard UTF-8 validation and decoding (rejecting
overlong forms, surrogates and values above `0x10FFFF`). -/
def decodeUtf8 : List Nat → Option RStr
  | [] => some []
  | b0 :: rest =>
    if b0 < 0x80 then
      (decodeUtf8 rest).map (fun cs => b0 :: cs)
    else if b0 < 0xC2 then
      none
    else if b0 < 0xE0 then
      match rest with
      | b1 :: rest1 =>
        if 0x80 ≤ b1 ∧ b1 < 0xC0 then
          (decodeUtf8 rest1).map (fun cs => ((b0 - 0xC0) * 0x40 + (b1 - 0x80)) :: cs)
        else none
      | [] => none
    else if b0 < 0xF0 then
      match rest with
      | b1 :: b2 :: rest2 =>
        if (0x80 ≤ b1 ∧ b1 < 0xC0) ∧ (0x80 ≤ b2 ∧ b2 < 0xC0) ∧
            (b0 ≠ 0xE0 ∨ 0xA0 ≤ b1) ∧ (b0 ≠ 0xED ∨ b1 < 0xA0) then
          (decodeUtf8 rest2).map
            (fun cs => ((b0 - 0xE0) * 0x1000 + (b1 - 0x80) * 0x40 + (b2 - 0x80)) :: cs)
        else none
      | _ => none
    else if b0 < 0xF5 then
      match rest with
      | b1 :: b2 :: b3 :: rest3 =>
        if (0x80 ≤ b1 ∧ b1 < 0xC0) ∧ (0x80 ≤ b2 ∧ b2 < 0xC0) ∧ (0x80 ≤ b3 ∧ b3 < 0xC0) ∧
            (b0 ≠ 0xF0 ∨ 0x90 ≤ b1) ∧ (b0 ≠ 0xF4 ∨ b1 < 0x90) then
          (decodeUtf8 rest3).map
            (fun cs => ((b0 - 0xF0) * 0x40000 + (b1 - 0x80) * 0x1000
              + (b2 - 0x80) * 0x40 + (b3 - 0x80)) :: cs)
        else none
      | _ => none
    else none

/-! ## `src/lib.rs`: constants and data model -/

def MAX_PRIVATE_NAME_LENGTH : Nat := 10
/-- `DEFAULT_AUTH_NAME = "NULL"` as code points. -/
def DEFAULT_AUTH_NAME : RStr := [78, 85, 76, 76]
def MAX_AUTH_NAME_LENGTH : Nat := 30
def MAX_AUTH_METHOD_COUNT : Nat := 3
def MAX_GROUP_NAME_LENGTH : Nat := 32

/-- `ControlServiceType` discriminant values. -/
def JoinMessage : Nat := 0x00010000
def LeaveMessage : Nat := 0x00020000
def KillMessage : Nat := 0x00040000
def ReliableMessage : Nat := 0x00000002

def SPREAD_MAJOR_VERSION : Nat := 4
def SPREAD_MINOR_VERSION : Nat := 4
def SPREAD_PATCH_VERSION : Nat := 0

/-- `SpreadError::AcceptSession` discriminant. -/
def AcceptSession : Nat := 1

/-- The `std::old_io::IoErrorKind` values used by the client. -/
inductive IoErrorKind where
  | ConnectionFailed
  | ConnectionRefused
  | OtherIoError
  | EndOfFile
  deriving DecidableEq, Repr

/-- `std::old_io::IoError` as built by the client (`desc` and optional
`detail` strings). -/
structure IoError where
  kind : IoErrorKind
  desc : String
  detail : Option String
  deriving DecidableEq, Repr

/-- Reinterpret a `u32` value as an `i32` (two's complement). -/
def u32AsI32 (v : Nat) : Int :=
  if v < 2 ^ 31 then (v : Int) else (v : Int) - 2 ^ 32

/-- `SpreadMessage`: a message received from a Spread daemon. -/
structure SpreadMessage where
  service_type : Nat
  groups : List RStr
  sender : RStr
  data : List Nat
  deriving DecidableEq, Repr

/-- `SpreadClient` session state.  The `TcpStream` handle is modelled
externally: reads take an input byte list, writes return the bytes written. -/
structure SpreadClient where
  private_name : RStr
  groups : List RStr
  receive_membership_messages : Bool
  deriving DecidableEq, Repr

/-! ## Message encoding -/

/-- `encode_connect_message`: version bytes, membership mask, name length
byte (`private_name.len() as u8`, i.e. the UTF-8 byte length mod 256), then
the ISO-8859-1 encoding of the name. -/
def encode_connect_message (private_name : RStr)
    (receive_membership_messages : Bool) : Except String (List Nat) :=
  let mask : Nat := if receive_membership_messages then 0x10 else 0
  match latin1Encode private_name with
  | none => .error "Failed to encode private name"
  | some private_name_buf =>
    .ok ([SPREAD_MAJOR_VERSION, SPREAD_MINOR_VERSION, SPREAD_PATCH_VERSION, mask,
      strLen private_name % 256] ++ private_name_buf)

/-- One fixed-width name field of a service message: the ISO-8859-1 encoding
followed by a zero for each index in `range(name.len(), 32)` — note the
padding count comes from the UTF-8 byte length, not the encoded length.
This embeds the identical sender and group loops of `encode_message`. -/
def name_field (s : RStr) : Option (List Nat) :=
  (latin1Encode s).map
    (fun bs => bs ++ List.replicate (MAX_GROUP_NAME_LENGTH - strLen s) 0)

/-- Encode the group-name fields in order, failing on the first name that
cannot be ISO-8859-1-encoded. -/
def group_fields : List RStr → Option (List Nat)
  | [] => some []
  | g :: gs => do
    let f ← name_field g
    let rest ← group_fields gs
    pure (f ++ rest)

/-- `SpreadClient::encode_message`: service type word, 32-byte sender field,
group count, reserved zero word, payload length, group fields, payload. -/
def encode_message (service_type : Nat) (private_name : RStr)
    (groups : List RStr) (data : List Nat) : Except String (List Nat) :=
  match name_field private_name with
  | none => .error "Failed to encode private name"
  | some sender_field =>
    match group_fields groups with
    | none => .error "Failed to encode group name"
    | some gfields =>
      .ok (int_to_bytes service_type ++ sender_field ++
        int_to_bytes (groups.length % 2 ^ 32) ++ int_to_bytes 0 ++
        int_to_bytes (data.length % 2 ^ 32) ++ gfields ++ data)

/-! ## Transport model

The `TcpStream` is external: inbound bytes are an explicit list, the outcome
of each blocking `write_all` is a parameter, and the bytes written are
returned to the caller. -/

/-- Outcome of one blocking `write_all` on the transport. -/
abbrev WriteOutcome := Except IoError Unit

/-- Blocking `read_exact n`: the next `n` bytes and the remaining stream,
failing if the stream ends first. -/
def read_exact (n : Nat) (s : List Nat) : Except IoError (List Nat × List Nat) :=
  if n ≤ s.length then .ok (s.take n, s.drop n)
  else .error ⟨.EndOfFile, "end of file", none⟩

/-- Blocking `read_byte`. -/
def read_byte (s : List Nat) : Except IoError (Nat × List Nat) :=
  match s with
  | [] => .error ⟨.EndOfFile, "end of file", none⟩
  | b :: rest => .ok (b, rest)

/-! ## Client operations -/

/-- `SpreadClient::disconnect`: encode a Kill frame whose sole recipient group
is the session's own private name and write it.  (The `debug!` peer-address
lookup is diagnostics only.)  No session field is modified. -/
def disconnect (c : SpreadClient) (w : WriteOutcome) :
    Except IoError (List Nat) × SpreadClient :=
  match encode_message KillMessage c.private_name [c.private_name] [] with
  | .error e => (.error ⟨.OtherIoError, "Disconnection failed", some e⟩, c)
  | .ok kill_message =>
    match w with
    | .error e => (.error e, c)
    | .ok _ => (.ok kill_message, c)

/-- `SpreadClient::join`: encode a Join frame for `[group_name]` with empty
payload, write it, then push `group_name` onto `self.groups`. -/
def join (c : SpreadClient) (group_name : RStr) (w : WriteOutcome) :
    Except IoError (List Nat) × SpreadClient :=
  match encode_message JoinMessage c.private_name [group_name] [] with
  | .error e => (.error ⟨.OtherIoError, "Group join failed", some e⟩, c)
  | .ok join_message =>
    match w with
    | .error e => (.error e, c)
    | .ok _ => (.ok join_message, { c with groups := c.groups ++ [group_name] })

/-- `SpreadClient::leave`: encode a Leave frame, write it, then — exactly as
`join` does — push `group_name` onto `self.groups`. -/
def leave (c : SpreadClient) (group_name : RStr) (w : WriteOutcome) :
    Except IoError (List Nat) × SpreadClient :=
  match encode_message LeaveMessage c.private_name [group_name] [] with
  | .error e => (.error ⟨.OtherIoError, "Group leave failed", some e⟩, c)
  | .ok leave_message =>
    match w with
    | .error e => (.error e, c)
    | .ok _ => (.ok leave_message, { c with groups := c.groups ++ [group_name] })

/-- `SpreadClient::multicast`: encode a ReliableMessage frame carrying the
group list and payload and write it.  No session field is modified. -/
def multicast (c : SpreadClient) (groups : List RStr) (data : List Nat)
    (w : WriteOutcome) : Except IoError (List Nat) × SpreadClient :=
  match encode_message ReliableMessage c.private_name groups data with
  | .error e => (.error ⟨.OtherIoError, "Multicast failed", some e⟩, c)
  | .ok message =>
    match w with
    | .error e => (.error e, c)
    | .ok _ => (.ok message, c)

/-! ## Receiver / framer -/

/-- `SpreadClient::receive`: read the 48-byte header, resolve the byte-order
decision once from the leading word, read the group slots and the payload.
The ISO-8859-1 strict decode of sender and group slots is total, so the
source's decode-error branches are unreachable and have no model. -/
def receive (stream : List Nat) :
    Except IoError (SpreadMessage × List Nat) :=
  match read_exact (MAX_GROUP_NAME_LENGTH + 16) stream with
  | .error e => .error e
  | .ok (header_vec, s1) =>
    let is_correct_endianness := same_endianness (bytes_to_int (header_vec.take 4))
    let svc_type :=
      if is_correct_endianness then bytes_to_int (header_vec.take 4)
      else flip_endianness (bytes_to_int (header_vec.take 4))
    let sender := latin1Decode ((header_vec.drop 4).take 32)
    let num_groups :=
      if is_correct_endianness then bytes_to_int ((header_vec.drop 36).take 4)
      else flip_endianness (bytes_to_int ((header_vec.drop 36).take 4))
    let data_len :=
      if is_correct_endianness then bytes_to_int ((header_vec.drop 44).take 4)
      else flip_endianness (bytes_to_int ((header_vec.drop 44).take 4))
    match read_exact (MAX_GROUP_NAME_LENGTH * num_groups) s1 with
    | .error e => .error e
    | .ok (groups_vec, s2) =>
      let groups := (List.range num_groups).map
        (fun n => latin1Decode
          ((groups_vec.drop (n * MAX_GROUP_NAME_LENGTH)).take MAX_GROUP_NAME_LENGTH))
      match read_exact data_len s2 with
      | .error e => .error e
      | .ok (data_vec, s3) =>
        .ok ({ service_type := svc_type, groups := groups, sender := sender,
               data := data_vec }, s3)

/-! ## Handshake -/

/-- Rust byte slicing `&s[..n]` on a UTF-8 string: the prefix occupying
exactly the first `n` UTF-8 bytes, or `none` (a panic) when `n` is not a
character boundary. -/
def take_utf8_bytes : RStr → Nat → Option RStr
  | _, 0 => some []
  | [], _ + 1 => none
  | c :: cs, n + 1 =>
    if utf8Size c ≤ n + 1 then
      (take_utf8_bytes cs (n + 1 - utf8Size c)).map (fun t => c :: t)
    else none

/-- The truncation `connect` applies to the requested private name:
`&name[..MAX_PRIVATE_NAME_LENGTH]` when `name.len()` exceeds the limit. -/
def truncate_private_name (s : RStr) : Option RStr :=
  if strLen s > MAX_PRIVATE_NAME_LENGTH then take_utf8_bytes s MAX_PRIVATE_NAME_LENGTH
  else some s

/-- Handshake steps 2–6, entered after the connect message was written:
auth-offer read, auth-choice write, accept check, version check, assigned
name.  Returns the daemon-assigned private name on success, paired with the
writes these steps performed. -/
def handshake_after_connect (stream : List Nat) :
    Except IoError RStr × List (List Nat) :=
  match read_byte stream with
  | .error e => (.error e, [])
  | .ok (b, s1) =>
    let authname_len : Int := (b : Int)
    if authname_len = -1 then
      (.error ⟨.ConnectionFailed,
        "Connection closed during connect attempt to read auth name length",
        none⟩, [])
    else if authname_len ≥ 128 then
      (.error ⟨.ConnectionRefused, "Connection attempt rejected",
        some (toString (u32AsI32 (0xffffff00 ||| b)))⟩, [])
    else
      match read_exact b s1 with
      | .error e => (.error e, [])
      | .ok (_authname_vec, s2) =>
        match latin1Encode DEFAULT_AUTH_NAME with
        | none => (.error ⟨.ConnectionFailed, "Failed to encode authname", none⟩, [])
        | some auth_bytes =>
          let auth_choice := auth_bytes ++
            List.replicate ((MAX_AUTH_NAME_LENGTH * MAX_AUTH_METHOD_COUNT + 1) - b) 0
          match read_byte s2 with
          | .error e => (.error e, [auth_choice])
          | .ok (accepted, s3) =>
            if accepted ≠ AcceptSession then
              (.error ⟨.ConnectionFailed, "Connection attempt rejected",
                some (toString (u32AsI32 (0xffffff00 ||| accepted)))⟩, [auth_choice])
            else
              match read_byte s3 with
              | .error e => (.error e, [auth_choice])
              | .ok (mj, s4) =>
                match read_byte s4 with
                | .error e => (.error e, [auth_choice])
                | .ok (mn, s5) =>
                  match read_byte s5 with
                  | .error e => (.error e, [auth_choice])
                  | .ok (pt, s6) =>
                    let major : Int := (mj : Int)
                    let minor : Int := (mn : Int)
                    let patch : Int := (pt : Int)
                    if major = -1 ∨ minor = -1 ∨ patch = -1 then
                      (.error ⟨.ConnectionFailed, "Invalid version returned from server",
                        some (toString major ++ "." ++ toString minor ++ "."
                          ++ toString patch)⟩, [auth_choice])
                    else if major * 10000 + minor * 100 + patch < 30100 then
                      (.error ⟨.ConnectionFailed,
                        "Server is running old, unsupported version of Spread",
                        some (toString major ++ "." ++ toString minor ++ "."
                          ++ toString patch)⟩, [auth_choice])
                    else
                      match read_byte s6 with
                      | .error e => (.error e, [auth_choice])
                      | .ok (gl, s7) =>
                        let group_name_len : Int := (gl : Int)
                        if group_name_len = -1 then
                          (.error ⟨.ConnectionFailed,
                            "Connection closed during connect attempt to read group name length",
                            none⟩, [auth_choice])
                        else
                          match read_exact gl s7 with
                          | .error e => (.error e, [auth_choice])
                          | .ok (group_name_buf, _s8) =>
                            match decodeUtf8 group_name_buf with
                            | none => (.error ⟨.ConnectionFailed,
                                "Server sent invalid group name",
                                some ("invalid utf-8 sequence")⟩, [auth_choice])
                            | some private_group_name =>
                              (.ok private_group_name, [auth_choice])

/-- `connect`: the full handshake.  Returns `none` when the Rust code would
panic (byte index `MAX_PRIVATE_NAME_LENGTH` falling inside a multi-byte
character during truncation); otherwise the result paired with the list of
transport writes performed, in order. -/
def connect (private_name : RStr) (receive_membership_messages : Bool)
    (stream : List Nat) :
    Option (Except IoError SpreadClient × List (List Nat)) :=
  match truncate_private_name private_name with
  | none => none
  | some truncated =>
    match encode_connect_message truncated receive_membership_messages with
    | .error e => some (.error ⟨.ConnectionFailed, "", some e⟩, [])
    | .ok connect_message =>
      match handshake_after_connect stream with
      | (.error e, ws) => some (.error e, connect_message :: ws)
      | (.ok assigned_name, ws) =>
        let client : SpreadClient :=
          { private_name := assigned_name
            groups := []
            receive_membership_messages := receive_membership_messages }
        some (.ok client, connect_message :: ws)


/-! ### Bit-manipulation helper lemmas -/

/-- Masking with a shifted low-bits mask extracts a bit field:
`y &&& ((2^k - 1) <<< n)` keeps bits `n .. n+k-1` of `y` in place. -/
lemma and_mask_shift (y k n : Nat) :
    y &&& ((2 ^ k - 1) <<< n) = ((y >>> n) % 2 ^ k) <<< n := by
  apply Nat.eq_of_testBit_eq
  intro i
  simp only [Nat.testBit_and, Nat.testBit_shiftLeft, Nat.testBit_two_pow_sub_one,
    Nat.testBit_mod_two_pow, Nat.testBit_shiftRight]
  by_cases h : n ≤ i
  · have hni : n + (i - n) = i := by omega
    rw [hni]
    cases hy : y.testBit i <;> simp [h, hy]
  · simp [h]

/-- An `|||` whose right operand sits entirely above the left operand's bits
is an addition. -/
lemma mul_pow_or_eq_add {i a : Nat} (c : Nat) (h : a < 2 ^ i) :
    c * 2 ^ i ||| a = c * 2 ^ i + a := by
  rw [Nat.mul_comm c]
  exact (Nat.mul_add_lt_is_or h c).symm

/-- Symmetric version of `mul_pow_or_eq_add`. -/
lemma or_mul_pow_eq_add {i a : Nat} (c : Nat) (h : a < 2 ^ i) :
    a ||| c * 2 ^ i = a + c * 2 ^ i := by
  rw [Nat.or_comm, mul_pow_or_eq_add c h, Nat.add_comm]

/-- Arithmetic form of `flip_endianness`: the four bytes swap places. -/
lemma flip_endianness_arith (x : Nat) :
    flip_endianness x =
      (x / 2 ^ 24) % 2 ^ 8 +
      ((x / 2 ^ 8 / 2 ^ 8) % 2 ^ 8) * 2 ^ 8 +
      (((x * 2 ^ 8) % 2 ^ 32 / 2 ^ 16) % 2 ^ 8) * 2 ^ 16 +
      (((x * 2 ^ 24) % 2 ^ 32 / 2 ^ 24) % 2 ^ 8) * 2 ^ 24 := by
  have hff : (0x000000ff : Nat) = (2 ^ 8 - 1) <<< 0 := by decide
  have hff00 : (0x0000ff00 : Nat) = (2 ^ 8 - 1) <<< 8 := by decide
  have hff0000 : (0x00ff0000 : Nat) = (2 ^ 8 - 1) <<< 16 := by decide
  have hff000000 : (0xff000000 : Nat) = (2 ^ 8 - 1) <<< 24 := by decide
  simp only [flip_endianness, hff, hff00, hff0000, hff000000]
  rw [and_mask_shift, and_mask_shift, and_mask_shift, and_mask_shift]
  simp only [Nat.shiftLeft_eq, Nat.shiftRight_eq_div_pow, pow_zero, Nat.div_one, mul_one]
  rw [or_mul_pow_eq_add (i := 8) _ (by omega)]
  rw [or_mul_pow_eq_add (i := 16) _ (by omega)]
  rw [or_mul_pow_eq_add (i := 24) _ (by omega)]

/-- `flip_endianness` on a number given by its four big-endian bytes reverses
the bytes. -/
lemma flip_endianness_bytes (a b c d : Nat)
    (ha : a < 2 ^ 8) (hb : b < 2 ^ 8) (hc : c < 2 ^ 8) (hd : d < 2 ^ 8) :
    flip_endianness (a * 2 ^ 24 + b * 2 ^ 16 + c * 2 ^ 8 + d)
      = d * 2 ^ 24 + c * 2 ^ 16 + b * 2 ^ 8 + a := by
  rw [flip_endianness_arith]
  omega

/-- `bytes_to_int` on an explicit 4-byte list. -/
lemma bytes_to_int_four (b0 b1 b2 b3 : Nat) :
    bytes_to_int [b0, b1, b2, b3] =
      (((b0 &&& 0xFF) <<< 24) % 2 ^ 32) |||
        ((((b1 &&& 0xFF) <<< 16) % 2 ^ 32) |||
          ((((b2 &&& 0xFF) <<< 8) % 2 ^ 32) ||| (b3 &&& 0xFF))) := rfl

/-- `int_to_bytes` unfolded to its four big-endian bytes. -/
lemma int_to_bytes_eq (x : Nat) :
    int_to_bytes x = [(x >>> 24) &&& 0xFF, (x >>> 16) &&& 0xFF,
      (x >>> 8) &&& 0xFF, (x >>> 0) &&& 0xFF] := rfl

/-- Claim C6: for every 32-bit value `x`, decoding the 4-byte big-endian
encoding of `x` yields `x` (`bytes_to_int (int_to_bytes x) = x`), and flipping
the byte order twice yields `x` (`flip_endianness (flip_endianness x) = x`). -/
theorem bytes_roundtrip_and_flip_involutive (x : Nat) (hx : x < 2 ^ 32) :
    bytes_to_int (int_to_bytes x) = x ∧
    flip_endianness (flip_endianness x) = x := by
  constructor
  · rw [int_to_bytes_eq, bytes_to_int_four]
    have hmask : ∀ y : Nat, y &&& 0xFF = y % 2 ^ 8 := by
      intro y
      have h : (0xFF : Nat) = 2 ^ 8 - 1 := by decide
      rw [h, Nat.and_pow_two_sub_one_eq_mod]
    simp only [hmask, Nat.shiftRight_eq_div_pow, Nat.shiftLeft_eq,
      pow_zero, Nat.div_one, mul_one]
    have h0 : (x / 2 ^ 24 % 2 ^ 8 % 2 ^ 8) * 2 ^ 24 % 2 ^ 32
        = (x / 2 ^ 24 % 2 ^ 8 % 2 ^ 8) * 2 ^ 24 := by omega
    have h1 : (x / 2 ^ 16 % 2 ^ 8 % 2 ^ 8) * 2 ^ 16 % 2 ^ 32
        = (x / 2 ^ 16 % 2 ^ 8 % 2 ^ 8) * 2 ^ 16 := by omega
    have h2 : (x / 2 ^ 8 % 2 ^ 8 % 2 ^ 8) * 2 ^ 8 % 2 ^ 32
        = (x / 2 ^ 8 % 2 ^ 8 % 2 ^ 8) * 2 ^ 8 := by omega
    rw [h0, h1, h2]
    rw [mul_pow_or_eq_add (i := 8) _ (by omega)]
    rw [mul_pow_or_eq_add (i := 16) _ (by omega)]
    rw [mul_pow_or_eq_add (i := 24) _ (by omega)]
    omega
  · have hdecomp : x = (x / 2 ^ 24) * 2 ^ 24 + (x / 2 ^ 16 % 2 ^ 8) * 2 ^ 16
        + (x / 2 ^ 8 % 2 ^ 8) * 2 ^ 8 + x % 2 ^ 8 := by omega
    have e1 := flip_endianness_bytes (x / 2 ^ 24) (x / 2 ^ 16 % 2 ^ 8)
      (x / 2 ^ 8 % 2 ^ 8) (x % 2 ^ 8) (by omega) (by omega) (by omega) (by omega)
    have e2 := flip_endianness_bytes (x % 2 ^ 8) (x / 2 ^ 8 % 2 ^ 8)
      (x / 2 ^ 16 % 2 ^ 8) (x / 2 ^ 24) (by omega) (by omega) (by omega) (by omega)
    calc flip_endianness (flip_endianness x)
        = flip_endianness (flip_endianness ((x / 2 ^ 24) * 2 ^ 24
            + (x / 2 ^ 16 % 2 ^ 8) * 2 ^ 16 + (x / 2 ^ 8 % 2 ^ 8) * 2 ^ 8
            + x % 2 ^ 8)) := by rw [← hdecomp]
      _ = flip_endianness ((x % 2 ^ 8) * 2 ^ 24 + (x / 2 ^ 8 % 2 ^ 8) * 2 ^ 16
            + (x / 2 ^ 16 % 2 ^ 8) * 2 ^ 8 + x / 2 ^ 24) := by rw [e1]
      _ = (x / 2 ^ 24) * 2 ^ 24 + (x / 2 ^ 16 % 2 ^ 8) * 2 ^ 16
            + (x / 2 ^ 8 % 2 ^ 8) * 2 ^ 8 + x % 2 ^ 8 := by rw [e2]
      _ = x := hdecomp.symm

/-- Witness for `bytes_roundtrip_and_flip_involutive` at
`x = 0xA0000080` (the value from the repository's own unit test). -/
theorem bytes_roundtrip_and_flip_involutive_witness :
    (2684354688 : Nat) < 2 ^ 32 ∧
      (bytes_to_int (int_to_bytes 2684354688) = 2684354688 ∧
       flip_endianness (flip_endianness 2684354688) = 2684354688) :=
  ⟨by norm_num, bytes_roundtrip_and_flip_involutive 2684354688 (by norm_num)⟩

/-! ## Encoder theorems -/

/-- Claim C4 fails on the code: a sender whose encoding exceeds 32 bytes is
not truncated.  With a 33-character ASCII sender, no groups and no payload,
the frame is 49 bytes — the sender field occupies 33 bytes, whereas a frame
with an exactly-32-byte sender field would be 48 bytes. -/
theorem encode_message_no_truncation_counterexample :
    (encode_message 2 (List.replicate 33 97) [] []).toOption.map List.length
      = some 49 ∧ (49 : Nat) ≠ 4 + 32 + 4 + 4 + 4 := by
  refine ⟨rfl, by decide⟩

/-- Claim C4, amended: each sender/group name field produced by
`encode_message` is the ISO-8859-1 encoding of the name followed by
`32 - name.len()` zero bytes (`len` being the UTF-8 byte length): when the
name's UTF-8 length is at least 32 the encoding is emitted unpadded and
untruncated, and the field is exactly 32 bytes precisely in the ASCII case
(encoded length equals UTF-8 length) with length at most 32. -/
theorem name_field_layout (s : RStr) (bs : List Nat)
    (henc : latin1Encode s = some bs) :
    name_field s = some (bs ++ List.replicate (32 - strLen s) 0) ∧
    (32 ≤ strLen s → name_field s = some bs) ∧
    (bs.length = strLen s →
      ∀ f, name_field s = some f → f.length = max 32 (strLen s)) := by
  refine ⟨?_, ?_, ?_⟩
  · simp [name_field, MAX_GROUP_NAME_LENGTH, henc]
  · intro h32
    have hz : MAX_GROUP_NAME_LENGTH - strLen s = 0 := by
      simp only [MAX_GROUP_NAME_LENGTH]
      omega
    simp [name_field, henc, hz]
  · intro hlen f hf
    simp only [name_field, MAX_GROUP_NAME_LENGTH, henc, Option.map_some',
      Option.some.injEq] at hf
    subst hf
    rw [List.length_append, List.length_replicate, hlen]
    omega

/-- Witness for `name_field_layout` at the two-character ASCII sender
`"de"`. -/
theorem name_field_layout_witness :
    name_field [100, 101]
        = some ([100, 101] ++ List.replicate (32 - strLen [100, 101]) 0) ∧
    (32 ≤ strLen [100, 101] → name_field [100, 101] = some [100, 101]) ∧
    (([100, 101] : List Nat).length = strLen [100, 101] →
      ∀ f, name_field [100, 101] = some f →
        f.length = max 32 (strLen [100, 101])) :=
  name_field_layout [100, 101] [100, 101] rfl

/-! ## Connect-message theorems -/

/-- A successful `&s[..n]` byte slice is ISO-8859-1-encodable whenever `s`
is, and occupies exactly `n` UTF-8 bytes. -/
lemma take_utf8_bytes_spec (s : RStr) :
    ∀ (n : Nat) (t : RStr) (bs : List Nat), latin1Encode s = some bs →
      take_utf8_bytes s n = some t →
      ∃ tbs, latin1Encode t = some tbs ∧ strLen t = n := by
  induction s with
  | nil =>
    intro n t bs henc ht
    cases n with
    | zero =>
      simp only [take_utf8_bytes, Option.some.injEq] at ht
      subst ht
      exact ⟨[], rfl, rfl⟩
    | succ k => cases ht
  | cons c cs ih =>
    intro n t bs henc ht
    simp only [latin1Encode] at henc
    by_cases hc : c < 0x100
    · rw [if_pos hc] at henc
      obtain ⟨bs', henc', _⟩ := Option.map_eq_some'.mp henc
      cases n with
      | zero =>
        simp only [take_utf8_bytes, Option.some.injEq] at ht
        subst ht
        exact ⟨[], rfl, rfl⟩
      | succ m =>
        simp only [take_utf8_bytes] at ht
        split at ht
        · obtain ⟨t', ht', rfl⟩ := Option.map_eq_some'.mp ht
          obtain ⟨tbs', htenc', hlen'⟩ := ih (m + 1 - utf8Size c) t' bs' henc' ht'
          refine ⟨c :: tbs', ?_, ?_⟩
          · simp [latin1Encode, hc, htenc']
          · simp only [strLen, List.map_cons, List.sum_cons]
            have hsz : 1 ≤ utf8Size c := by
              unfold utf8Size
              split_ifs <;> omega
            simp only [strLen] at hlen'
            omega
        · cases ht
    · rw [if_neg hc] at henc
      cases henc

/-- After a successful truncation and connect-message encoding, every run of
`connect` performs that encoded connect message as its first transport
write. -/
lemma connect_first_write (name : RStr) (memb : Bool) (stream : List Nat)
    (t : RStr) (ht : truncate_private_name name = some t)
    (msg : List Nat) (hmsg : encode_connect_message t memb = .ok msg) :
    ∃ r ws, connect name memb stream = some (r, msg :: ws) := by
  rcases hh : handshake_after_connect stream with ⟨res, ws⟩
  simp only [connect, ht, hmsg, hh]
  cases res with
  | error e => exact ⟨.error e, ws, rfl⟩
  | ok nm => exact ⟨_, ws, rfl⟩

/-- Claim C7 fails on the code: the length byte is the UTF-8 byte length, not
the character count (`"é"` gives length byte 2), and an over-long name is cut
at UTF-8 byte offset 10, not at 10 characters (11 `"é"`s are cut to 5
characters, so the frame differs from the one the claim predicts for a name
truncated to exactly 10 characters). -/
theorem connect_truncation_counterexample :
    (encode_connect_message [233] true = .ok [4, 4, 0, 16, 2, 233] ∧
      ([4, 4, 0, 16, 2, 233] : List Nat) ≠ [4, 4, 0, 16, 1] ++ [233]) ∧
    (connect (List.replicate 11 233) true [0, 1, 4, 4, 0, 1, 97]
        = some (.ok { private_name := [97], groups := [],
                      receive_membership_messages := true },
            [[4, 4, 0, 16, 10] ++ List.replicate 5 233,
             [78, 85, 76, 76] ++ List.replicate 91 0]) ∧
      ([4, 4, 0, 16, 10] ++ List.replicate 5 233 : List Nat)
        ≠ [4, 4, 0, 16, 10] ++ List.replicate 10 233) := by
  exact ⟨⟨rfl, by decide⟩, rfl, by decide⟩

/-- Claim C7, amended: for every ISO-8859-1-encodable private name whose
UTF-8 length is at most 10 bytes, the connect message with membership on is
`[4, 4, 0, 0x10, name.len()]` followed by the encoded name, and `connect`
writes exactly that frame first; for a name whose UTF-8 length exceeds 10,
`connect` builds the frame from the prefix occupying exactly the first 10
UTF-8 bytes (panicking when offset 10 is not a character boundary), so the
frame is `[4, 4, 0, 0x10, 10]` followed by that prefix's encoding. -/
theorem connect_message_layout (name : RStr) (bs : List Nat)
    (henc : latin1Encode name = some bs) :
    (strLen name ≤ 10 →
      encode_connect_message name true = .ok ([4, 4, 0, 16, strLen name] ++ bs) ∧
      ∀ stream, ∃ r ws, connect name true stream
        = some (r, ([4, 4, 0, 16, strLen name] ++ bs) :: ws)) ∧
    (∀ t, 10 < strLen name → take_utf8_bytes name 10 = some t →
      strLen t = 10 ∧
      ∃ tbs, latin1Encode t = some tbs ∧
        ∀ stream, ∃ r ws, connect name true stream
          = some (r, ([4, 4, 0, 16, 10] ++ tbs) :: ws)) := by
  constructor
  · intro hle
    have h256 : strLen name % 256 = strLen name := Nat.mod_eq_of_lt (by omega)
    have hmsg : encode_connect_message name true
        = .ok ([4, 4, 0, 16, strLen name] ++ bs) := by
      simp [encode_connect_message, henc, h256, SPREAD_MAJOR_VERSION,
        SPREAD_MINOR_VERSION, SPREAD_PATCH_VERSION]
    refine ⟨hmsg, fun stream => ?_⟩
    apply connect_first_write name true stream name ?_ _ hmsg
    simp only [truncate_private_name, MAX_PRIVATE_NAME_LENGTH]
    rw [if_neg (by omega)]
  · intro t hgt ht
    obtain ⟨tbs, htenc, hlen⟩ := take_utf8_bytes_spec name 10 t bs henc ht
    refine ⟨hlen, tbs, htenc, fun stream => ?_⟩
    have hmsg : encode_connect_message t true = .ok ([4, 4, 0, 16, 10] ++ tbs) := by
      simp [encode_connect_message, htenc, hlen, SPREAD_MAJOR_VERSION,
        SPREAD_MINOR_VERSION, SPREAD_PATCH_VERSION]
    apply connect_first_write name true stream t ?_ _ hmsg
    simp only [truncate_private_name, MAX_PRIVATE_NAME_LENGTH]
    rw [if_pos (by omega)]
    exact ht

/-- Witness for `connect_message_layout` at the 11-character ASCII name
`"aaaaaaaaaaa"`, which exercises the truncation branch. -/
theorem connect_message_layout_witness :
    (strLen (List.replicate 11 97) ≤ 10 →
      encode_connect_message (List.replicate 11 97) true
        = .ok ([4, 4, 0, 16, strLen (List.replicate 11 97)] ++ List.replicate 11 97) ∧
      ∀ stream, ∃ r ws, connect (List.replicate 11 97) true stream
        = some (r, ([4, 4, 0, 16, strLen (List.replicate 11 97)]
            ++ List.replicate 11 97) :: ws)) ∧
    (∀ t, 10 < strLen (List.replicate 11 97) →
      take_utf8_bytes (List.replicate 11 97) 10 = some t →
      strLen t = 10 ∧
      ∃ tbs, latin1Encode t = some tbs ∧
        ∀ stream, ∃ r ws, connect (List.replicate 11 97) true stream
          = some (r, ([4, 4, 0, 16, 10] ++ tbs) :: ws)) :=
  connect_message_layout (List.replicate 11 97) (List.replicate 11 97) rfl

/-! ## Handshake theorems -/

/-- Claim C1, at its failing input: with requested name `"test"` and a daemon
stream offering an auth list of length `L = 0` and then accepting, the
handshake's auth-choice write is the encoded `"NULL"` followed by
`91 - L = 91` zero bytes — 95 bytes in total, not the
`MaxAuthNameLength * MaxAuthMethodCount + 1 = 91` bytes the specification
requires independently of `L` (the padding loop starts at the daemon-supplied
offer length instead of at the length of the bytes already written). -/
theorem auth_choice_write_is_95_bytes_at_L0 :
    connect [116, 101, 115, 116] true [0, 1, 4, 4, 0, 1, 97]
      = some (.ok { private_name := [97], groups := [],
                    receive_membership_messages := true },
          [[4, 4, 0, 16, 4, 116, 101, 115, 116],
           [78, 85, 76, 76] ++ List.replicate 91 0]) ∧
    ([78, 85, 76, 76] ++ List.replicate 91 0).length = 95 ∧ (95 : Nat) ≠ 91 := by
  refine ⟨rfl, rfl, by decide⟩

/-- Claim C2, at its failing input: with the daemon sending auth-offer length
0 and then the accept byte `b = 0 ≠ AcceptSession`, `connect` fails carrying
the sign-extended code `(0xFFFFFF00 | 0) as i32 = -256` as the claim states,
but with error kind `ConnectionFailed`, not `ConnectionRefused`. -/
theorem accept_reject_has_kind_connection_failed :
    connect [116, 101, 115, 116] true [0, 0]
      = some (.error { kind := .ConnectionFailed,
                       desc := "Connection attempt rejected",
                       detail := some "-256" },
          [[4, 4, 0, 16, 4, 116, 101, 115, 116],
           [78, 85, 76, 76] ++ List.replicate 91 0]) ∧
    IoErrorKind.ConnectionFailed ≠ IoErrorKind.ConnectionRefused := by
  refine ⟨rfl, by decide⟩

/-! ## Receiver theorems -/

/-- Characterisation of a successful `read_exact`. -/
lemma read_exact_ok {n : Nat} {s buf rest : List Nat}
    (h : read_exact n s = .ok (buf, rest)) :
    buf = s.take n ∧ rest = s.drop n ∧ n ≤ s.length := by
  unfold read_exact at h
  split at h
  · simp only [Except.ok.injEq, Prod.mk.injEq] at h
    exact ⟨h.1.symm, h.2.symm, by assumption⟩
  · cases h

/-- Claim C3 fails on the code: `receive` decodes the whole 32-byte sender
slot and group slots without trimming the zero padding.  On a frame whose
sender slot is `"de"` padded with 30 zero bytes, the returned sender is the
full 32-character string ending in NUL characters, not `"de"`. -/
theorem receive_keeps_trailing_nuls_counterexample :
    receive ([0, 0, 0, 2] ++ ([100, 101] ++ List.replicate 30 0) ++
        [0, 0, 0, 0] ++ [0, 0, 0, 0] ++ [0, 0, 0, 0])
      = .ok ({ service_type := 2, groups := [],
               sender := [100, 101] ++ List.replicate 30 0, data := [] }, []) ∧
    ([100, 101] ++ List.replicate 30 0 : RStr) ≠ [100, 101] ∧
    ([100, 101] ++ List.replicate 30 0 : RStr).getLast? = some 0 := by
  refine ⟨rfl, by decide, by decide⟩

/-- Claim C3, amended: every sender and group-name string returned by
`receive` is the ISO-8859-1 decoding of the corresponding full 32-byte wire
slot with no trimming of the zero padding: the sender is the decoding of
header bytes 4..36, the `k`-th group name is the decoding of the 32-byte
slot starting at frame offset `48 + k * 32`, and each returned string is
exactly 32 characters long. -/
theorem receive_decodes_full_slots (stream : List Nat) (m : SpreadMessage)
    (rest : List Nat) (h : receive stream = .ok (m, rest)) :
    m.sender = (stream.drop 4).take 32 ∧ m.sender.length = 32 ∧
    m.groups = (List.range m.groups.length).map
      (fun k => (stream.drop (48 + k * 32)).take 32) ∧
    ∀ g ∈ m.groups, g.length = 32 := by
  simp only [receive] at h
  split at h
  · cases h
  case h_2 p header_vec s1 heq1 =>
    split at h
    · cases h
    case h_2 q groups_vec s2 heq2 =>
      split at h
      · cases h
      case h_2 r data_vec s3 heq3 =>
        cases h
        obtain ⟨hbuf1, hrest1, hlen1⟩ := read_exact_ok heq1
        obtain ⟨hbuf2, hrest2, hlen2⟩ := read_exact_ok heq2
        simp only [MAX_GROUP_NAME_LENGTH] at *
        subst hbuf1
        subst hrest1
        have hs : ((stream.take (32 + 16)).drop 4).take 32 = (stream.drop 4).take 32 := by
          rw [List.drop_take, List.take_take]
          norm_num
        refine ⟨?_, ?_, ?_, ?_⟩
        · show latin1Decode (((stream.take (32 + 16)).drop 4).take 32)
            = (stream.drop 4).take 32
          rw [latin1Decode, hs]
        · show (latin1Decode (((stream.take (32 + 16)).drop 4).take 32)).length = 32
          rw [latin1Decode, hs, List.length_take, List.length_drop]
          omega
        · simp only [List.length_map, List.length_range]
          apply List.map_congr_left
          intro k hk
          simp only [List.mem_range] at hk
          rw [latin1Decode, hbuf2, List.drop_take, List.take_take, List.drop_drop]
          rw [min_eq_left (by omega)]
        · intro g hg
          simp only [List.mem_map, List.mem_range] at hg
          obtain ⟨k, hk, hgk⟩ := hg
          subst hgk
          simp only [latin1Decode, List.length_take, List.length_drop]
          have h2 : 32 * (k + 1) ≤ groups_vec.length := by
            rw [hbuf2, List.length_take]
            omega
          omega

/-- Witness for `receive_decodes_full_slots` on a concrete one-group frame
whose sender slot holds `"de"` and whose single group slot holds `"foo"`. -/
theorem receive_decodes_full_slots_witness :
    (⟨2, [[102, 111, 111] ++ List.replicate 29 0],
        [100, 101] ++ List.replicate 30 0, []⟩ : SpreadMessage).sender
      = ((([0, 0, 0, 2] ++ ([100, 101] ++ List.replicate 30 0) ++
          [0, 0, 0, 1] ++ [0, 0, 0, 0] ++ [0, 0, 0, 0] ++
          ([102, 111, 111] ++ List.replicate 29 0)).drop 4).take 32) ∧
    (⟨2, [[102, 111, 111] ++ List.replicate 29 0],
        [100, 101] ++ List.replicate 30 0, []⟩ : SpreadMessage).sender.length = 32 ∧
    (⟨2, [[102, 111, 111] ++ List.replicate 29 0],
        [100, 101] ++ List.replicate 30 0, []⟩ : SpreadMessage).groups
      = (List.range (⟨2, [[102, 111, 111] ++ List.replicate 29 0],
          [100, 101] ++ List.replicate 30 0, []⟩ : SpreadMessage).groups.length).map
        (fun k => (([0, 0, 0, 2] ++ ([100, 101] ++ List.replicate 30 0) ++
          [0, 0, 0, 1] ++ [0, 0, 0, 0] ++ [0, 0, 0, 0] ++
          ([102, 111, 111] ++ List.replicate 29 0)).drop (48 + k * 32)).take 32) ∧
    ∀ g ∈ (⟨2, [[102, 111, 111] ++ List.replicate 29 0],
        [100, 101] ++ List.replicate 30 0, []⟩ : SpreadMessage).groups,
      g.length = 32 :=
  receive_decodes_full_slots
    ([0, 0, 0, 2] ++ ([100, 101] ++ List.replicate 30 0) ++
      [0, 0, 0, 1] ++ [0, 0, 0, 0] ++ [0, 0, 0, 0] ++
      ([102, 111, 111] ++ List.replicate 29 0))
    ⟨2, [[102, 111, 111] ++ List.replicate 29 0],
      [100, 101] ++ List.replicate 30 0, []⟩
    [] rfl

/-- Claim C5: `receive` makes exactly one byte-order decision per frame,
computed from the big-endian decoding `w` of the frame's leading 4-byte word
as `(w &&& 0x80000080) ≠ 0`, and applies that same decision uniformly to the
`group_count` and `data_len` fields (and to the service type), flipping each
if and only if the decision holds. -/
theorem receive_single_swap_decision (stream : List Nat) (m : SpreadMessage)
    (rest : List Nat) (h : receive stream = .ok (m, rest)) :
    (m.service_type =
      if bytes_to_int (stream.take 4) &&& 0x80000080 ≠ 0
      then flip_endianness (bytes_to_int (stream.take 4))
      else bytes_to_int (stream.take 4)) ∧
    (m.groups.length =
      if bytes_to_int (stream.take 4) &&& 0x80000080 ≠ 0
      then flip_endianness (bytes_to_int ((stream.drop 36).take 4))
      else bytes_to_int ((stream.drop 36).take 4)) ∧
    (m.data.length =
      if bytes_to_int (stream.take 4) &&& 0x80000080 ≠ 0
      then flip_endianness (bytes_to_int ((stream.drop 44).take 4))
      else bytes_to_int ((stream.drop 44).take 4)) := by
  simp only [receive] at h
  split at h
  · cases h
  case h_2 p header_vec s1 heq1 =>
    split at h
    · cases h
    case h_2 q groups_vec s2 heq2 =>
      split at h
      · cases h
      case h_2 r data_vec s3 heq3 =>
        cases h
        obtain ⟨hbuf1, hrest1, hlen1⟩ := read_exact_ok heq1
        obtain ⟨hbuf3, hrest3, hlen3⟩ := read_exact_ok heq3
        simp only [MAX_GROUP_NAME_LENGTH] at *
        subst hbuf1
        have h4 : (stream.take (32 + 16)).take 4 = stream.take 4 := by
          rw [List.take_take]
          norm_num
        have h36 : ((stream.take (32 + 16)).drop 36).take 4 = (stream.drop 36).take 4 := by
          rw [List.drop_take, List.take_take]
          norm_num
        have h44 : ((stream.take (32 + 16)).drop 44).take 4 = (stream.drop 44).take 4 := by
          rw [List.drop_take, List.take_take]
          norm_num
        simp only [h4, h36, h44] at hbuf3 hlen3 ⊢
        by_cases hw : bytes_to_int (stream.take 4) &&& 0x80000080 ≠ 0
        · have hb : same_endianness (bytes_to_int (stream.take 4)) = false := by
            simp only [same_endianness, ENDIANTYPE]
            simpa using hw
          rw [if_pos hw, if_pos hw, if_pos hw]
          simp only [hb, Bool.false_eq_true, if_false] at hbuf3 hlen3 ⊢
          refine ⟨trivial, ?_, ?_⟩
          · simp only [List.length_map, List.length_range]
          · rw [hbuf3, List.length_take]
            omega
        · have hb : same_endianness (bytes_to_int (stream.take 4)) = true := by
            simp only [same_endianness, ENDIANTYPE]
            simpa using not_not.mp hw
          rw [if_neg hw, if_neg hw, if_neg hw]
          simp only [hb, if_true] at hbuf3 hlen3 ⊢
          refine ⟨trivial, ?_, ?_⟩
          · simp only [List.length_map, List.length_range]
          · rw [hbuf3, List.length_take]
            omega

/-- Witness for `receive_single_swap_decision` on a byte-swapped frame: the
leading word decodes to `0x82`, whose `0x80` bit triggers the swap decision,
so `group_count` and `data_len` are both flipped (to 1 and 2). -/
theorem receive_single_swap_decision_witness :
    (({ service_type := 2181038080, groups := [List.replicate 32 0],
        sender := List.replicate 32 0, data := [7, 8] } : SpreadMessage).service_type =
      if bytes_to_int (([0, 0, 0, 130] ++ List.replicate 32 0 ++ [1, 0, 0, 0] ++
          [0, 0, 0, 0] ++ [2, 0, 0, 0] ++ List.replicate 32 0 ++ [7, 8]).take 4)
            &&& 0x80000080 ≠ 0
      then flip_endianness (bytes_to_int (([0, 0, 0, 130] ++ List.replicate 32 0 ++
          [1, 0, 0, 0] ++ [0, 0, 0, 0] ++ [2, 0, 0, 0] ++ List.replicate 32 0 ++
          [7, 8]).take 4))
      else bytes_to_int (([0, 0, 0, 130] ++ List.replicate 32 0 ++ [1, 0, 0, 0] ++
          [0, 0, 0, 0] ++ [2, 0, 0, 0] ++ List.replicate 32 0 ++ [7, 8]).take 4)) ∧
    (({ service_type := 2181038080, groups := [List.replicate 32 0],
        sender := List.replicate 32 0, data := [7, 8] } : SpreadMessage).groups.length =
      if bytes_to_int (([0, 0, 0, 130] ++ List.replicate 32 0 ++ [1, 0, 0, 0] ++
          [0, 0, 0, 0] ++ [2, 0, 0, 0] ++ List.replicate 32 0 ++ [7, 8]).take 4)
            &&& 0x80000080 ≠ 0
      then flip_endianness (bytes_to_int ((([0, 0, 0, 130] ++ List.replicate 32 0 ++
          [1, 0, 0, 0] ++ [0, 0, 0, 0] ++ [2, 0, 0, 0] ++ List.replicate 32 0 ++
          [7, 8]).drop 36).take 4))
      else bytes_to_int ((([0, 0, 0, 130] ++ List.replicate 32 0 ++ [1, 0, 0, 0] ++
          [0, 0, 0, 0] ++ [2, 0, 0, 0] ++ List.replicate 32 0 ++
          [7, 8]).drop 36).take 4)) ∧
    (({ service_type := 2181038080, groups := [List.replicate 32 0],
        sender := List.replicate 32 0, data := [7, 8] } : SpreadMessage).data.length =
      if bytes_to_int (([0, 0, 0, 130] ++ List.replicate 32 0 ++ [1, 0, 0, 0] ++
          [0, 0, 0, 0] ++ [2, 0, 0, 0] ++ List.replicate 32 0 ++ [7, 8]).take 4)
            &&& 0x80000080 ≠ 0
      then flip_endianness (bytes_to_int ((([0, 0, 0, 130] ++ List.replicate 32 0 ++
          [1, 0, 0, 0] ++ [0, 0, 0, 0] ++ [2, 0, 0, 0] ++ List.replicate 32 0 ++
          [7, 8]).drop 44).take 4))
      else bytes_to_int ((([0, 0, 0, 130] ++ List.replicate 32 0 ++ [1, 0, 0, 0] ++
          [0, 0, 0, 0] ++ [2, 0, 0, 0] ++ List.replicate 32 0 ++
          [7, 8]).drop 44).take 4)) :=
  receive_single_swap_decision
    ([0, 0, 0, 130] ++ List.replicate 32 0 ++ [1, 0, 0, 0] ++ [0, 0, 0, 0] ++
      [2, 0, 0, 0] ++ List.replicate 32 0 ++ [7, 8])
    { service_type := 2181038080, groups := [List.replicate 32 0],
      sender := List.replicate 32 0, data := [7, 8] }
    [] rfl

/-! ## Session-operation theorems -/

/-- Claim C8: for a session whose private name is `"de"` (and any group
bookkeeping and membership flag), `multicast(["foo"], b"beef")` writes exactly
the service-type word of ReliableMulticast, `"de"` zero-padded to 32 bytes,
group count 1, reserved 0, data length 4, `"foo"` zero-padded to 32 bytes,
then `b"beef"`. -/
theorem multicast_foo_beef_exact_bytes (g : List RStr) (b : Bool) :
    multicast { private_name := [100, 101], groups := g,
                receive_membership_messages := b }
        [[102, 111, 111]] [98, 101, 101, 102] (.ok ())
      = (.ok ([0, 0, 0, 2] ++ ([100, 101] ++ List.replicate 30 0) ++
          [0, 0, 0, 1] ++ [0, 0, 0, 0] ++ [0, 0, 0, 4] ++
          ([102, 111, 111] ++ List.replicate 29 0) ++ [98, 101, 101, 102]),
        { private_name := [100, 101], groups := g,
          receive_membership_messages := b }) := rfl

/-- Claim C9: a successful `join(name)` appends `name` to the session's
group-tracking collection, and a successful `leave(name)` appends to the very
same collection in the same way; neither removes nor deduplicates, so the
collection is append-only under both operations. -/
theorem join_and_leave_append_to_groups (c : SpreadClient) (gn : RStr)
    (w : WriteOutcome) :
    (∀ m c', join c gn w = (.ok m, c') →
      c'.groups = c.groups ++ [gn] ∧
      c'.private_name = c.private_name ∧
      c'.receive_membership_messages = c.receive_membership_messages) ∧
    (∀ m c', leave c gn w = (.ok m, c') →
      c'.groups = c.groups ++ [gn] ∧
      c'.private_name = c.private_name ∧
      c'.receive_membership_messages = c.receive_membership_messages) := by
  constructor
  · intro m c' h
    unfold join at h
    cases henc : encode_message JoinMessage c.private_name [gn] [] with
    | error e => rw [henc] at h; cases h
    | ok msg =>
      rw [henc] at h
      cases w with
      | error e => cases h
      | ok u => cases h; exact ⟨rfl, rfl, rfl⟩
  · intro m c' h
    unfold leave at h
    cases henc : encode_message LeaveMessage c.private_name [gn] [] with
    | error e => rw [henc] at h; cases h
    | ok msg =>
      rw [henc] at h
      cases w with
      | error e => cases h
      | ok u => cases h; exact ⟨rfl, rfl, rfl⟩

/-- Witness for `join_and_leave_append_to_groups`: a concrete session with
private name `"de"` joining and leaving group `"f"` over a succeeding
transport. -/
theorem join_and_leave_append_to_groups_witness :
    ((({ private_name := [100, 101], groups := [[102]],
         receive_membership_messages := false } : SpreadClient).groups
        = ({ private_name := [100, 101], groups := [],
             receive_membership_messages := false } : SpreadClient).groups ++ [[102]])
      ∧ ([100, 101] : RStr) = [100, 101] ∧ (false : Bool) = false) ∧
    ((({ private_name := [100, 101], groups := [[102]],
         receive_membership_messages := false } : SpreadClient).groups
        = ({ private_name := [100, 101], groups := [],
             receive_membership_messages := false } : SpreadClient).groups ++ [[102]])
      ∧ ([100, 101] : RStr) = [100, 101] ∧ (false : Bool) = false) :=
  ⟨(join_and_leave_append_to_groups
      { private_name := [100, 101], groups := [],
        receive_membership_messages := false } [102] (.ok ())).1 _ _ rfl,
   (join_and_leave_append_to_groups
      { private_name := [100, 101], groups := [],
        receive_membership_messages := false } [102] (.ok ())).2 _ _ rfl⟩

/-- Claim C10: `multicast` and `disconnect` leave the session state unchanged
whether they succeed or fail; neither touches the private name, the group
collection, nor the membership flag. -/
theorem multicast_and_disconnect_preserve_state (c : SpreadClient)
    (groups : List RStr) (data : List Nat) (w w' : WriteOutcome) :
    (multicast c groups data w).2 = c ∧ (disconnect c w').2 = c := by
  constructor
  · unfold multicast
    cases encode_message ReliableMessage c.private_name groups data with
    | error e => rfl
    | ok msg => cases w <;> rfl
  · unfold disconnect
    cases encode_message KillMessage c.private_name [c.private_name] [] with
    | error e => rfl
    | ok msg => cases w' <;> rfl

end Spread
